import Mathlib

/-!
Verification of `horovod/torch/sync_batch_norm.py`.

The file shallow-embeds the two Python classes of the source:

* `SyncBatchNorm.forward` — the module-level forward (device check, rank
  check, step-counter increment, dispatch between the plain local path and
  the synchronized path);
* `_SyncBatchNorm.forward` / `_SyncBatchNorm.backward` — the autograd
  function implementing the synchronized path.

Tensors are modelled as a shape together with flattened rational data.
The numeric torch kernels (`torch.batch_norm_stats`, `batch_norm_elemt`,
`batch_norm_backward_reduce`, `batch_norm_backward_elemt`, `F.batch_norm`)
and the horovod collective transport (`allgather_async`, `allreduce_async`,
`synchronize`, `size`) are opaque collaborators of this core; they are
passed in as explicit `Kernels` and `Env` parameters, and every collective
issue/wait is recorded in an event trace so that ordering properties can be
stated.  The statistics-combination kernel
`torch.batch_norm_gather_stats_with_counts` is external library code; its
mean/variance merge is modelled separately from the spec (Chan's parallel
variance formula) for the numerical-correctness claim.
-/

/-- A tensor: shape plus flattened data, with the device flag the source
checks (`input.is_cuda`). -/
structure Tensor where
  shape : List Nat
  isCuda : Bool
  data : List ℚ
deriving DecidableEq

/-- `input.dim()`. -/
def Tensor.dim (t : Tensor) : Nat := t.shape.length

/-- `input.numel()`. -/
def Tensor.numel (t : Tensor) : Nat := t.shape.prod

/-- `input.size(1)`, the channel dimension (defined when `dim ≥ 2`). -/
def Tensor.size1 (t : Tensor) : Nat := t.shape.getD 1 0

/-- `input.numel() // input.size(1)`: per-channel sample count, as computed
on line 78 of the source (`size = input.numel() // input.size(1)`).  Nat
division is total, while the Python expression raises `ZeroDivisionError`
when `size(1) == 0` (and `IndexError` below rank 2), so this model — and
every theorem over it — is faithful only on the region `0 < size1`, which
the theorems assume explicitly. -/
def Tensor.perChannel (t : Tensor) : Nat := t.numel / t.size1

/-- Collective-communication events, in the order the source issues them.
`allgatherAsync`/`allreduceAsync` record the issue of an asynchronous
collective under a name; `wait` records the blocking `synchronize` call on
the handle of that name. -/
inductive Event where
  | allgatherAsync (name : String)
  | allreduceAsync (name : String)
  | wait (name : String)
deriving DecidableEq

/-- Whether an event is the issue of a collective operation. -/
def Event.isIssue : Event → Bool
  | .allgatherAsync _ => true
  | .allreduceAsync _ => true
  | .wait _ => false

/-- The name a collective event was issued or waited on under. -/
def Event.name : Event → String
  | .allgatherAsync n => n
  | .allreduceAsync n => n
  | .wait n => n

/-- Errors raised by the source (`ValueError` messages, classified). -/
inductive BNError where
  | notOnGpu
  | invalidRank (d : Nat)
  | insufficientSamples (n : Nat)
deriving DecidableEq

/-- The collective transport (horovod `mpi_ops`): worker count (`size()`),
and the values delivered by all-gather and all-reduce once synchronized.
Opaque collaborator, hence a parameter. -/
structure Env where
  size : Nat
  gather : String → List ℚ → List (List ℚ)
  reduce : String → List ℚ → List ℚ

/-- The opaque numeric torch kernels, passed as parameters.  Raw payloads
only; the control flow around them is what this file embeds. -/
structure Kernels where
  batch_norm_stats : List ℚ → ℚ → List ℚ × List ℚ
  batch_norm_gather_stats_with_counts :
    List ℚ → List (List ℚ) → List (List ℚ) → List ℚ → List ℚ →
    Option ℚ → ℚ → List ℚ → (List ℚ × List ℚ) × (List ℚ × List ℚ)
  batch_norm_elemt :
    List ℚ → Option (List ℚ) → Option (List ℚ) → List ℚ → List ℚ → ℚ → List ℚ
  backward_reduce_core :
    List ℚ → List ℚ → List ℚ → List ℚ → Option (List ℚ) →
    Bool → Bool → Bool → List ℚ × List ℚ × List ℚ × List ℚ
  batch_norm_backward_elemt :
    List ℚ → List ℚ → List ℚ → List ℚ → Option (List ℚ) → List ℚ → List ℚ → List ℚ
  f_batch_norm : List ℚ → List ℚ → List ℚ → Option (List ℚ) → Option (List ℚ) →
    Bool → Option ℚ → ℚ → List ℚ

/-- Model of `torch.batch_norm_backward_reduce`: the kernel computes
`(mean_dy, mean_dy_xmu, grad_weight, grad_bias)`; the last two are defined
exactly for the requested flags (an undefined tensor surfaces as `None` at
the Python level). -/
def batch_norm_backward_reduce (k : Kernels)
    (grad_output input mean invstd : List ℚ) (weight : Option (List ℚ))
    (input_g weight_g bias_g : Bool) :
    List ℚ × List ℚ × Option (List ℚ) × Option (List ℚ) :=
  let r := k.backward_reduce_core grad_output input mean invstd weight input_g weight_g bias_g
  (r.1, r.2.1, if weight_g then some r.2.2.1 else none, if bias_g then some r.2.2.2 else none)

/-- `ctx.save_for_backward(input, weight, mean, invstd)` (source line 107). -/
structure Saved where
  input : List ℚ
  weight : Option (List ℚ)
  mean : List ℚ
  invstd : List ℚ

/-- What the synchronized path produces: the normalized output, the saved
context, and the running statistics as updated in place by
`batch_norm_gather_stats_with_counts`. -/
structure SyncResult where
  output : List ℚ
  saved : Saved
  running_mean : List ℚ
  running_var : List ℚ

/-- The fixed names of the three forward all-gathers. -/
def countName : String := "sync_batch_norm.count"

/-- Name of the mean all-gather. -/
def meanName : String := "sync_batch_norm.mean"

/-- Name of the invstd all-gather. -/
def invstdName : String := "sync_batch_norm.invstd"

/-- Name of the `mean_dy` all-reduce in backward. -/
def meanDyName : String := "sync_batch_norm.mean_dy"

/-- Name of the `mean_dy_xmu` all-reduce in backward. -/
def meanDyXmuName : String := "sync_batch_norm.mean_dy_xmu"

/-- The event trace of the synchronized forward path: three named
asynchronous all-gathers issued back to back, then the three blocking
waits in the same order (source lines 86–93). -/
def syncForwardTrace : List Event :=
  [Event.allgatherAsync countName, Event.allgatherAsync meanName,
   Event.allgatherAsync invstdName, Event.wait countName,
   Event.wait meanName, Event.wait invstdName]

/-- `_SyncBatchNorm.forward` (source lines 74–110): raises on a per-channel
count of exactly 1, computes local stats, all-gathers count/mean/invstd,
combines them via `batch_norm_gather_stats_with_counts`, saves context and
normalizes elementwise.  Returns the result (or error) with the collective
event trace of the call.  Line 78's integer division is modelled as total
Nat division, so the embedding is faithful only for `0 < size1` — at
`size(1) == 0` (e.g. shape `(2, 0)`) Python raises `ZeroDivisionError`
before any collective, a path this model does not represent; theorems
about this function therefore assume a positive channel dimension. -/
def _SyncBatchNorm.forward (k : Kernels) (env : Env) (input : Tensor)
    (weight bias : Option (List ℚ)) (running_mean running_var : List ℚ)
    (eps : ℚ) (momentum : Option ℚ) :
    Except BNError SyncResult × List Event :=
  let size := input.numel / input.size1
  if size = 1 then
    (Except.error (BNError.insufficientSamples size), [])
  else
    let ms := k.batch_norm_stats input.data eps
    let count_all := env.gather countName [(size : ℚ)]
    let mean_all := env.gather meanName ms.1
    let invstd_all := env.gather invstdName ms.2
    let g := k.batch_norm_gather_stats_with_counts input.data mean_all invstd_all
      running_mean running_var momentum eps count_all.flatten
    (Except.ok
      { output := k.batch_norm_elemt input.data weight bias g.1.1 g.1.2 eps,
        saved := { input := input.data, weight := weight, mean := g.1.1, invstd := g.1.2 },
        running_mean := g.2.1, running_var := g.2.2 },
     syncForwardTrace)

/-- The arguments the plain path hands to `F.batch_norm` (source lines
64–66): running statistics, affine parameters, and the batch-statistics
flag `self.training or not self.track_running_stats`. -/
structure PlainCall where
  input : List ℚ
  running_mean : List ℚ
  running_var : List ℚ
  weight : Option (List ℚ)
  bias : Option (List ℚ)
  use_batch_stats : Bool
  momentum : Option ℚ
  eps : ℚ

/-- Outcome of the module forward: either the plain local `F.batch_norm`
call or the synchronized-path result. -/
inductive ForwardOut where
  | plain (call : PlainCall)
  | synced (r : SyncResult)

/-- The `SyncBatchNorm` module state (fields of `_BatchNorm` the source
reads or writes). -/
structure SyncBatchNorm where
  num_features : Nat
  eps : ℚ
  momentum : Option ℚ
  affine : Bool
  track_running_stats : Bool
  training : Bool
  weight : Option (List ℚ)
  bias : Option (List ℚ)
  running_mean : List ℚ
  running_var : List ℚ
  num_batches_tracked : Nat

/-- The step-counter increment of source lines 60–61: `num_batches_tracked`
grows by one when training with tracking enabled. -/
def stepCounter (m : SyncBatchNorm) : SyncBatchNorm :=
  if m.training && m.track_running_stats then
    { m with num_batches_tracked := m.num_batches_tracked + 1 }
  else m

/-- The dispatch condition of source line 63:
`size() == 1 or (not self.training and self.track_running_stats)` selects
the plain local path. -/
def plainPath (env : Env) (m : SyncBatchNorm) : Bool :=
  env.size == 1 || (!m.training && m.track_running_stats)

/-- `SyncBatchNorm.forward` (source lines 54–72): device check, rank
check, step-counter increment when training with tracking, then dispatch:
plain local `F.batch_norm` when `size() == 1` or in eval mode with
tracking, the synchronized autograd function otherwise.  Returns the
outcome (or error), the module state after the call, and the collective
event trace. -/
def SyncBatchNorm.forward (k : Kernels) (env : Env) (m : SyncBatchNorm) (input : Tensor) :
    Except BNError ForwardOut × SyncBatchNorm × List Event :=
  if input.isCuda = false then
    (Except.error BNError.notOnGpu, m, [])
  else if input.dim < 2 then
    (Except.error (BNError.invalidRank input.dim), m, [])
  else
    let m1 := stepCounter m
    if plainPath env m1 then
      (Except.ok (ForwardOut.plain
        { input := input.data, running_mean := m1.running_mean,
          running_var := m1.running_var, weight := m1.weight, bias := m1.bias,
          use_batch_stats := m1.training || !m1.track_running_stats,
          momentum := m1.momentum, eps := m1.eps }), m1, [])
    else
      match _SyncBatchNorm.forward k env input m1.weight m1.bias m1.running_mean
        m1.running_var m1.eps m1.momentum with
      | (Except.error e, tr) => (Except.error e, m1, tr)
      | (Except.ok r, tr) =>
        (Except.ok (ForwardOut.synced r),
         { m1 with running_mean := r.running_mean, running_var := r.running_var }, tr)

/-- `ctx.needs_input_grad[0..2]` for the three tensor inputs the backward
inspects. -/
structure Needs where
  input : Bool
  weight : Bool
  bias : Bool

/-- `_SyncBatchNorm.backward` (source lines 113–158): local backward
reduce; when the input gradient is needed, two named asynchronous
all-reduces on `mean_dy` and `mean_dy_xmu`, both waits, then the
elementwise backward; `grad_weight`/`grad_bias` dropped unless requested
and `weight` present; returns the 9-tuple of gradient slots of the source
(line 158) as a list, with the collective event trace. -/
def _SyncBatchNorm.backward (k : Kernels) (env : Env) (saved : Saved)
    (needs : Needs) (grad_output : List ℚ) :
    List (Option (List ℚ)) × List Event :=
  let r := batch_norm_backward_reduce k grad_output saved.input saved.mean
    saved.invstd saved.weight needs.input needs.weight needs.bias
  let step :=
    if needs.input then
      (some (k.batch_norm_backward_elemt grad_output saved.input saved.mean
        saved.invstd saved.weight (env.reduce meanDyName r.1)
        (env.reduce meanDyXmuName r.2.1)),
       [Event.allreduceAsync meanDyName, Event.allreduceAsync meanDyXmuName,
        Event.wait meanDyName, Event.wait meanDyXmuName])
    else (none, ([] : List Event))
  let grad_weight := if saved.weight.isNone || !needs.weight then none else r.2.2.1
  let grad_bias := if saved.weight.isNone || !needs.bias then none else r.2.2.2
  ([step.1, grad_weight, grad_bias, none, none, none, none, none, none], step.2)

/-! ## Batch statistics and the spec-modelled merge (for the numerical claim) -/

/-- Mean of one channel's samples in a batch. -/
def batchMean (xs : List ℚ) : ℚ := xs.sum / xs.length

/-- Population (biased) variance of one channel's samples, the variance
`torch.batch_norm_stats` computes over the local batch. -/
def batchVar (xs : List ℚ) : ℚ :=
  ((xs.map fun x => (x - batchMean xs) ^ 2).sum) / xs.length

/-- Modelled from the spec: the combined mean computed by
`torch.batch_norm_gather_stats_with_counts`, whose implementation is
external library code not under `src/`.  Per the spec, the global mean is
the count-weighted average of the worker means, `sum(ci*mi)/sum(ci)`. -/
def combinedMean (counts means : List ℚ) : ℚ :=
  (List.zipWith (fun c m => c * m) counts means).sum / counts.sum

/-- Modelled from the spec: the combined variance computed by
`torch.batch_norm_gather_stats_with_counts`, i.e. Chan's parallel-variance
merge: the count-weighted average of the worker variances plus the
count-weighted variance of the worker means about the combined mean. -/
def chanVar (counts means vars : List ℚ) : ℚ :=
  ((List.zipWith (fun c v => c * v) counts vars).sum +
    (List.zipWith (fun c m => c * (m - combinedMean counts means) ^ 2) counts means).sum) /
    counts.sum

/-! ## Concrete instances used by the witnesses -/

/-- A concrete transport: two workers, all-gather stacks two copies of the
local payload, all-reduce delivers the payload unchanged. -/
def testEnv : Env where
  size := 2
  gather := fun _ x => [x, x]
  reduce := fun _ x => x

/-- The single-worker variant of the test transport. -/
def oneWorkerEnv : Env := { testEnv with size := 1 }

/-- Concrete kernels for witnesses; the theorems quantify over every
instantiation of the opaque primitives. -/
def testKernels : Kernels where
  batch_norm_stats := fun d _ => (d, d)
  batch_norm_gather_stats_with_counts := fun _ ma ia rm rv _ _ _ =>
    ((ma.flatten, ia.flatten), (rm, rv))
  batch_norm_elemt := fun d _ _ _ _ _ => d
  backward_reduce_core := fun g _ _ _ _ _ _ _ => (g, g, g, g)
  batch_norm_backward_elemt := fun g _ _ _ _ _ _ => g
  f_batch_norm := fun d _ _ _ _ _ _ _ => d

/-- A concrete module in training mode with tracking enabled. -/
def testModule : SyncBatchNorm where
  num_features := 1
  eps := 1 / 100000
  momentum := some (1 / 10)
  affine := true
  track_running_stats := true
  training := true
  weight := some [1]
  bias := some [0]
  running_mean := [0]
  running_var := [1]
  num_batches_tracked := 0

/-- The test module in evaluation mode with tracking disabled. -/
def evalModule : SyncBatchNorm :=
  { testModule with training := false, track_running_stats := false }

/-- A GPU tensor of shape `(2, 1)`: per-channel count 2. -/
def goodTensor : Tensor := { shape := [2, 1], isCuda := true, data := [1, 2] }

/-- A GPU tensor of shape `(1, 1)`: per-channel count exactly 1. -/
def oneSampleTensor : Tensor := { shape := [1, 1], isCuda := true, data := [5] }

/-- A GPU tensor of shape `(0, 3)`: zero elements, per-channel count 0. -/
def emptyTensor : Tensor := { shape := [0, 3], isCuda := true, data := [] }

/-- A CPU tensor (fails the device check). -/
def cpuTensor : Tensor := { shape := [2, 1], isCuda := false, data := [1, 2] }

/-- A concrete saved context with `weight` present. -/
def testSaved : Saved := { input := [1, 2], weight := some [3], mean := [0], invstd := [1] }

/-- A concrete saved context with `weight` absent. -/
def noWeightSaved : Saved := { input := [1, 2], weight := none, mean := [0], invstd := [1] }

/-! ## Basic lemmas about the embedding -/

/-- The step counter does not change the training flag. -/
@[simp] theorem stepCounter_training (m : SyncBatchNorm) :
    (stepCounter m).training = m.training := by
  unfold stepCounter; split <;> rfl

/-- The step counter does not change the tracking flag. -/
@[simp] theorem stepCounter_track (m : SyncBatchNorm) :
    (stepCounter m).track_running_stats = m.track_running_stats := by
  unfold stepCounter; split <;> rfl

/-- The step counter does not change the running mean. -/
@[simp] theorem stepCounter_running_mean (m : SyncBatchNorm) :
    (stepCounter m).running_mean = m.running_mean := by
  unfold stepCounter; split <;> rfl

/-- The step counter does not change the running variance. -/
@[simp] theorem stepCounter_running_var (m : SyncBatchNorm) :
    (stepCounter m).running_var = m.running_var := by
  unfold stepCounter; split <;> rfl

/-- The step counter does not change the weight. -/
@[simp] theorem stepCounter_weight (m : SyncBatchNorm) :
    (stepCounter m).weight = m.weight := by
  unfold stepCounter; split <;> rfl

/-- The step counter does not change the bias. -/
@[simp] theorem stepCounter_bias (m : SyncBatchNorm) :
    (stepCounter m).bias = m.bias := by
  unfold stepCounter; split <;> rfl

/-- The step counter does not change eps. -/
@[simp] theorem stepCounter_eps (m : SyncBatchNorm) :
    (stepCounter m).eps = m.eps := by
  unfold stepCounter; split <;> rfl

/-- The step counter does not change momentum. -/
@[simp] theorem stepCounter_momentum (m : SyncBatchNorm) :
    (stepCounter m).momentum = m.momentum := by
  unfold stepCounter; split <;> rfl

/-- When training with tracking, the counter increments by one. -/
theorem stepCounter_tracked (m : SyncBatchNorm) (h1 : m.training = true)
    (h2 : m.track_running_stats = true) :
    (stepCounter m).num_batches_tracked = m.num_batches_tracked + 1 := by
  unfold stepCounter
  rw [h1, h2]
  rfl

/-- The trace of the autograd-function forward: empty on the
insufficient-samples error, the three-gather/three-wait trace otherwise. -/
theorem sync_forward_trace (k : Kernels) (env : Env) (input : Tensor)
    (w b : Option (List ℚ)) (rm rv : List ℚ) (eps : ℚ) (mom : Option ℚ) :
    (_SyncBatchNorm.forward k env input w b rm rv eps mom).2 =
      if input.numel / input.size1 = 1 then [] else syncForwardTrace := by
  unfold _SyncBatchNorm.forward
  by_cases h : input.numel / input.size1 = 1 <;> simp [h]

/-- The autograd-function forward succeeds exactly when the per-channel
count is not 1. -/
theorem sync_forward_ok_iff (k : Kernels) (env : Env) (input : Tensor)
    (w b : Option (List ℚ)) (rm rv : List ℚ) (eps : ℚ) (mom : Option ℚ) :
    (∃ r, (_SyncBatchNorm.forward k env input w b rm rv eps mom).1 = Except.ok r) ↔
      input.numel / input.size1 ≠ 1 := by
  unfold _SyncBatchNorm.forward
  by_cases h : input.numel / input.size1 = 1 <;> simp [h]

/-- The only error the autograd-function forward raises is
`insufficientSamples`, exactly on a per-channel count of 1. -/
theorem sync_forward_error_iff (k : Kernels) (env : Env) (input : Tensor)
    (w b : Option (List ℚ)) (rm rv : List ℚ) (eps : ℚ) (mom : Option ℚ) (e : BNError) :
    ((_SyncBatchNorm.forward k env input w b rm rv eps mom).1 = Except.error e ↔
      (input.numel / input.size1 = 1 ∧ e = BNError.insufficientSamples 1)) := by
  unfold _SyncBatchNorm.forward
  by_cases h : input.numel / input.size1 = 1 <;> simp [h]
  exact eq_comm

/-! ## Claim theorems -/

/-- C2 (corrected): in the training-path forward, with a positive channel
dimension, the `InsufficientSamples` error is raised exactly when the
per-channel sample count `numel // size(1)` equals 1; a per-channel count
of 0 passes the check (the source tests `size == 1`, not `size <= 1`), and
every count other than 1 succeeds past this check. -/
theorem C2_insufficient_samples_iff_one (k : Kernels) (env : Env) (input : Tensor)
    (w b : Option (List ℚ)) (rm rv : List ℚ) (eps : ℚ) (mom : Option ℚ)
    (_hch : 0 < input.size1) :
    ((_SyncBatchNorm.forward k env input w b rm rv eps mom).1 =
        Except.error (BNError.insufficientSamples input.perChannel) ↔
      input.perChannel = 1) ∧
    (input.perChannel ≠ 1 →
      ∃ r, (_SyncBatchNorm.forward k env input w b rm rv eps mom).1 = Except.ok r) := by
  constructor
  · rw [sync_forward_error_iff]
    unfold Tensor.perChannel
    constructor
    · exact fun hp => hp.1
    · exact fun hp => ⟨hp, by rw [hp]⟩
  · intro hne
    exact (sync_forward_ok_iff k env input w b rm rv eps mom).mpr hne

/-- Witness for C2: at a `(1, 1)` input the per-channel count is 1 and the
error is raised. -/
theorem C2_witness :
    0 < oneSampleTensor.size1 ∧
    (((_SyncBatchNorm.forward testKernels testEnv oneSampleTensor (some [1]) (some [0])
        [0] [1] (1 / 100000) (some (1 / 10))).1 =
        Except.error (BNError.insufficientSamples oneSampleTensor.perChannel) ↔
      oneSampleTensor.perChannel = 1) ∧
    (oneSampleTensor.perChannel ≠ 1 →
      ∃ r, (_SyncBatchNorm.forward testKernels testEnv oneSampleTensor (some [1]) (some [0])
        [0] [1] (1 / 100000) (some (1 / 10))).1 = Except.ok r)) :=
  ⟨by decide,
   C2_insufficient_samples_iff_one testKernels testEnv oneSampleTensor (some [1]) (some [0])
     [0] [1] (1 / 100000) (some (1 / 10)) (by decide)⟩

/-- Counterexample for C2 as stated: a `(0, 3)` input has per-channel
count 0, yet the forward passes the sample check and returns a result
rather than raising `InsufficientSamples`. -/
theorem C2_counterexample :
    emptyTensor.perChannel = 0 ∧
    ∃ r, (_SyncBatchNorm.forward testKernels testEnv emptyTensor (some [1]) (some [0])
      [0] [1] (1 / 100000) (some (1 / 10))).1 = Except.ok r := by
  exact ⟨rfl, ⟨_, rfl⟩⟩

/-- C3 (amended): every backward call returns nine gradient slots — the
gradients for input, weight and bias followed by six `None`s — not seven
(one per forward input); the two trailing extra `None`s are what the host
autograd engine tolerates and truncates.  The input slot is present
exactly when the input gradient was requested, and every slot past the
first three is `None`. -/
theorem C3_nine_gradient_slots (k : Kernels) (env : Env) (saved : Saved)
    (needs : Needs) (g : List ℚ) :
    (_SyncBatchNorm.backward k env saved needs g).1.length = 9 ∧
    (_SyncBatchNorm.backward k env saved needs g).1.drop 3 = List.replicate 6 none ∧
    ((_SyncBatchNorm.backward k env saved needs g).1.getD 0 none ≠ none ↔
      needs.input = true) := by
  unfold _SyncBatchNorm.backward
  cases hni : needs.input <;> simp [hni, List.replicate]

/-- Counterexample for C3 as stated: a concrete backward call returns a
result with nine gradient slots, while the forward takes seven inputs. -/
theorem C3_counterexample :
    (_SyncBatchNorm.backward testKernels testEnv testSaved
      { input := true, weight := true, bias := true } [1, 2]).1.length = 9 ∧
    (9 : Nat) ≠ 7 := by
  exact ⟨rfl, by decide⟩

/-- C4: whenever the module forward raises an error (device check, rank
check or sample check), its collective event trace is empty: the error is
raised before any all-gather or all-reduce is issued. -/
theorem C4_error_before_any_collective (k : Kernels) (env : Env)
    (m : SyncBatchNorm) (input : Tensor) (e : BNError)
    (herr : (SyncBatchNorm.forward k env m input).1 = Except.error e) :
    (SyncBatchNorm.forward k env m input).2.2 = [] := by
  unfold SyncBatchNorm.forward at herr ⊢
  by_cases hc : input.isCuda = false
  · simp [hc]
  · by_cases hd : input.dim < 2
    · simp [hc, hd]
    · by_cases hp : plainPath env (stepCounter m) = true
      · simp [hc, hd, hp] at herr
      · rcases hfe : _SyncBatchNorm.forward k env input m.weight m.bias m.running_mean
          m.running_var m.eps m.momentum with ⟨res, tr⟩
        have htr := sync_forward_trace k env input m.weight m.bias m.running_mean
          m.running_var m.eps m.momentum
        rw [hfe] at htr
        cases res with
        | error e2 =>
          have h1 : (_SyncBatchNorm.forward k env input m.weight m.bias m.running_mean
              m.running_var m.eps m.momentum).1 = Except.error e2 := by rw [hfe]
          have h2 := (sync_forward_error_iff k env input m.weight m.bias m.running_mean
            m.running_var m.eps m.momentum e2).mp h1
          simp [hc, hd, hp, hfe]
          simpa [h2.1] using htr
        | ok r =>
          simp [hc, hd, hp, hfe] at herr

/-- Witness for C4: a CPU input raises the device error with an empty
trace. -/
theorem C4_witness :
    (SyncBatchNorm.forward testKernels testEnv testModule cpuTensor).2.2 = [] :=
  C4_error_before_any_collective testKernels testEnv testModule cpuTensor
    BNError.notOnGpu rfl

/-- C5: when the input gradient is not requested, backward issues zero
collective operations and the input-gradient slot is `None`. -/
theorem C5_backward_no_input_grad (k : Kernels) (env : Env) (saved : Saved)
    (needs : Needs) (g : List ℚ) (h : needs.input = false) :
    (_SyncBatchNorm.backward k env saved needs g).2 = [] ∧
    (_SyncBatchNorm.backward k env saved needs g).1.getD 0 none = none := by
  unfold _SyncBatchNorm.backward
  simp [h]

/-- Witness for C5: a concrete backward call that does not request the
input gradient. -/
theorem C5_witness :
    (_SyncBatchNorm.backward testKernels testEnv testSaved
      { input := false, weight := true, bias := true } [1, 2]).2 = [] ∧
    (_SyncBatchNorm.backward testKernels testEnv testSaved
      { input := false, weight := true, bias := true } [1, 2]).1.getD 0 none = none :=
  C5_backward_no_input_grad testKernels testEnv testSaved
    { input := false, weight := true, bias := true } [1, 2] rfl

/-- C6: the weight/bias gradient slots are present exactly when requested
and `weight` was present; when present they are the raw local outputs of
the backward-reduce kernel, untouched by any collective; and every
collective event in backward concerns only `mean_dy`/`mean_dy_xmu`. -/
theorem C6_param_grads_local (k : Kernels) (env : Env) (saved : Saved)
    (needs : Needs) (g : List ℚ) :
    ((_SyncBatchNorm.backward k env saved needs g).1.getD 1 none ≠ none ↔
      (needs.weight = true ∧ saved.weight.isSome = true)) ∧
    ((_SyncBatchNorm.backward k env saved needs g).1.getD 2 none ≠ none ↔
      (needs.bias = true ∧ saved.weight.isSome = true)) ∧
    ((_SyncBatchNorm.backward k env saved needs g).1.getD 1 none =
      if needs.weight && saved.weight.isSome then
        some (k.backward_reduce_core g saved.input saved.mean saved.invstd saved.weight
          needs.input needs.weight needs.bias).2.2.1
      else none) ∧
    ((_SyncBatchNorm.backward k env saved needs g).1.getD 2 none =
      if needs.bias && saved.weight.isSome then
        some (k.backward_reduce_core g saved.input saved.mean saved.invstd saved.weight
          needs.input needs.weight needs.bias).2.2.2
      else none) ∧
    ((_SyncBatchNorm.backward k env saved needs g).2.all
      (fun ev => ev.name == meanDyName || ev.name == meanDyXmuName)) = true := by
  unfold _SyncBatchNorm.backward batch_norm_backward_reduce
  cases hni : needs.input <;> cases hnw : needs.weight <;> cases hnb : needs.bias <;>
    cases hw : saved.weight <;>
      simp [hni, hnw, hnb, hw, Event.name]

/-- `stepCounter` preserves the dispatch condition. -/
theorem plainPath_stepCounter (env : Env) (m : SyncBatchNorm) :
    plainPath env (stepCounter m) = plainPath env m := by
  simp [plainPath]

/-- C7: on every synchronized-path forward call (rank ≥ 2, positive
channel dimension — the region where line 78's division is defined — and
per-channel count not 1),
the collective trace is exactly three asynchronous all-gathers under the
distinct fixed names count, mean, invstd — issued in that order, all
before any of the three waits — followed by the three waits in the same
order.  The trace is one fixed constant, independent of input, kernels and
transport, hence identical on every worker. -/
theorem C7_three_named_allgathers (k : Kernels) (env : Env) (input : Tensor)
    (w b : Option (List ℚ)) (rm rv : List ℚ) (eps : ℚ) (mom : Option ℚ)
    (_hd : 2 ≤ input.dim) (_hch : 0 < input.size1) (h : input.perChannel ≠ 1) :
    (_SyncBatchNorm.forward k env input w b rm rv eps mom).2 =
      [Event.allgatherAsync countName, Event.allgatherAsync meanName,
       Event.allgatherAsync invstdName, Event.wait countName,
       Event.wait meanName, Event.wait invstdName] ∧
    countName ≠ meanName ∧ countName ≠ invstdName ∧ meanName ≠ invstdName := by
  refine ⟨?_, by decide, by decide, by decide⟩
  rw [sync_forward_trace]
  simp [Tensor.perChannel] at h
  simp [h, syncForwardTrace]

/-- Witness for C7: a concrete synchronized-path call. -/
theorem C7_witness :
    (_SyncBatchNorm.forward testKernels testEnv goodTensor (some [1]) (some [0])
        [0] [1] (1 / 100000) (some (1 / 10))).2 =
      [Event.allgatherAsync countName, Event.allgatherAsync meanName,
       Event.allgatherAsync invstdName, Event.wait countName,
       Event.wait meanName, Event.wait invstdName] ∧
    countName ≠ meanName ∧ countName ≠ invstdName ∧ meanName ≠ invstdName :=
  C7_three_named_allgathers testKernels testEnv goodTensor (some [1]) (some [0])
    [0] [1] (1 / 100000) (some (1 / 10)) (by decide) (by decide) (by decide)

/-- C9: when a forward call in training mode with tracking enabled raises
the `InsufficientSamples` error, the module state it leaves behind already
has `num_batches_tracked` incremented: the counter bump of source lines
60–61 precedes the sample check of line 78. -/
theorem C9_counter_bumped_before_error (k : Kernels) (env : Env)
    (m : SyncBatchNorm) (input : Tensor) (n : Nat)
    (h1 : m.training = true) (h2 : m.track_running_stats = true)
    (herr : (SyncBatchNorm.forward k env m input).1 =
      Except.error (BNError.insufficientSamples n)) :
    (SyncBatchNorm.forward k env m input).2.1.num_batches_tracked =
      m.num_batches_tracked + 1 := by
  unfold SyncBatchNorm.forward at herr ⊢
  by_cases hc : input.isCuda = false
  · simp [hc] at herr
  · by_cases hd : input.dim < 2
    · simp [hc, hd] at herr
    · by_cases hp : plainPath env (stepCounter m) = true
      · simp [hc, hd, hp] at herr
      · rcases hfe : _SyncBatchNorm.forward k env input m.weight m.bias m.running_mean
          m.running_var m.eps m.momentum with ⟨res, tr⟩
        cases res with
        | error e2 =>
          simp [hc, hd, hp, hfe]
          exact stepCounter_tracked m h1 h2
        | ok r =>
          simp [hc, hd, hp, hfe] at herr

/-- Witness for C9: a single-sample input in training mode errors and the
counter has moved from 0 to 1. -/
theorem C9_witness :
    (SyncBatchNorm.forward testKernels testEnv testModule
        oneSampleTensor).2.1.num_batches_tracked =
      testModule.num_batches_tracked + 1 :=
  C9_counter_bumped_before_error testKernels testEnv testModule oneSampleTensor 1
    rfl rfl rfl

/-- C10: in evaluation mode with tracking disabled and more than one
worker, a valid forward call (GPU input of rank ≥ 2 with a positive
channel dimension and per-channel count not 1) takes the
collective-synchronized path: it returns the synchronized result and its
trace is the full three-gather/three-wait trace. -/
theorem C10_eval_untracked_takes_sync_path (k : Kernels) (env : Env)
    (m : SyncBatchNorm) (input : Tensor)
    (h1 : m.training = false) (h2 : m.track_running_stats = false)
    (hn : 1 < env.size) (hc : input.isCuda = true) (hd : 2 ≤ input.dim)
    (_hch : 0 < input.size1) (hs : input.perChannel ≠ 1) :
    (∃ r, (SyncBatchNorm.forward k env m input).1 = Except.ok (ForwardOut.synced r)) ∧
    (SyncBatchNorm.forward k env m input).2.2 = syncForwardTrace := by
  have hne : env.size ≠ 1 := by omega
  have hp : plainPath env (stepCounter m) = false := by
    simp [plainPath, h1, h2]
    omega
  have hd2 : ¬ input.dim < 2 := by omega
  have hs2 : input.numel / input.size1 ≠ 1 := hs
  unfold SyncBatchNorm.forward
  rcases hfe : _SyncBatchNorm.forward k env input m.weight m.bias m.running_mean
    m.running_var m.eps m.momentum with ⟨res, tr⟩
  have htr := sync_forward_trace k env input m.weight m.bias m.running_mean
    m.running_var m.eps m.momentum
  rw [hfe] at htr
  have hok := (sync_forward_ok_iff k env input m.weight m.bias m.running_mean
    m.running_var m.eps m.momentum).mpr hs2
  rw [hfe] at hok
  obtain ⟨r, hr⟩ := hok
  cases res with
  | error e2 => simp at hr
  | ok r2 =>
    constructor
    · exact ⟨r2, by simp [hc, hd2, hp, hfe]⟩
    · simp [hc, hd2, hp, hfe]
      simpa [hs2] using htr

/-- Witness for C10: eval-mode module without tracking, two workers. -/
theorem C10_witness :
    (∃ r, (SyncBatchNorm.forward testKernels testEnv evalModule goodTensor).1 =
      Except.ok (ForwardOut.synced r)) ∧
    (SyncBatchNorm.forward testKernels testEnv evalModule goodTensor).2.2 =
      syncForwardTrace :=
  C10_eval_untracked_takes_sync_path testKernels testEnv evalModule goodTensor
    rfl rfl (by decide) rfl (by decide) (by decide) (by decide)

/-- C1: with a valid input (on GPU, rank ≥ 2, positive channel dimension —
the region where line 78's division is defined), the forward performs
plain local batch
normalization exactly when `size() == 1` or in eval mode with tracking
(`plainPath`): it hands `F.batch_norm` the existing running statistics
with the batch-statistics flag `training or not track_running_stats`
(batch statistics whenever not tracking) and issues no collective; in
every other case it returns the synchronized-path result, whose trace
gathers all workers' local statistics. -/
theorem C1_plain_vs_sync_dispatch (k : Kernels) (env : Env) (m : SyncBatchNorm)
    (input : Tensor) (hc : input.isCuda = true) (hd : 2 ≤ input.dim)
    (_hch : 0 < input.size1) :
    (plainPath env m = true →
      (SyncBatchNorm.forward k env m input).1 = Except.ok (ForwardOut.plain
        { input := input.data, running_mean := m.running_mean,
          running_var := m.running_var, weight := m.weight, bias := m.bias,
          use_batch_stats := m.training || !m.track_running_stats,
          momentum := m.momentum, eps := m.eps }) ∧
      (SyncBatchNorm.forward k env m input).2.2 = []) ∧
    (plainPath env m = false → input.perChannel ≠ 1 →
      (∃ r, (SyncBatchNorm.forward k env m input).1 = Except.ok (ForwardOut.synced r)) ∧
      (SyncBatchNorm.forward k env m input).2.2 = syncForwardTrace) := by
  have hd2 : ¬ input.dim < 2 := by omega
  constructor
  · intro hcond
    have hp : plainPath env (stepCounter m) = true := by
      rw [plainPath_stepCounter]; exact hcond
    unfold SyncBatchNorm.forward
    simp [hc, hd2, hp]
  · intro hcond hs
    have hp : plainPath env (stepCounter m) = false := by
      rw [plainPath_stepCounter]; exact hcond
    have hs2 : input.numel / input.size1 ≠ 1 := hs
    unfold SyncBatchNorm.forward
    rcases hfe : _SyncBatchNorm.forward k env input m.weight m.bias m.running_mean
      m.running_var m.eps m.momentum with ⟨res, tr⟩
    have htr := sync_forward_trace k env input m.weight m.bias m.running_mean
      m.running_var m.eps m.momentum
    rw [hfe] at htr
    have hok := (sync_forward_ok_iff k env input m.weight m.bias m.running_mean
      m.running_var m.eps m.momentum).mpr hs2
    rw [hfe] at hok
    obtain ⟨r, hr⟩ := hok
    cases res with
    | error e2 => simp at hr
    | ok r2 =>
      constructor
      · exact ⟨r2, by simp [hc, hd2, hp, hfe]⟩
      · simp [hc, hd2, hp, hfe]
        simpa [hs2] using htr

/-- Witness for C1: one worker in training mode takes the plain path (with
batch statistics, no collectives); the two-worker eval-without-tracking
setup of the second conjunct is exercised by its own hypotheses. -/
theorem C1_witness :
    (plainPath oneWorkerEnv testModule = true →
      (SyncBatchNorm.forward testKernels oneWorkerEnv testModule goodTensor).1 =
        Except.ok (ForwardOut.plain
        { input := goodTensor.data, running_mean := testModule.running_mean,
          running_var := testModule.running_var, weight := testModule.weight,
          bias := testModule.bias,
          use_batch_stats := testModule.training || !testModule.track_running_stats,
          momentum := testModule.momentum, eps := testModule.eps }) ∧
      (SyncBatchNorm.forward testKernels oneWorkerEnv testModule goodTensor).2.2 = []) ∧
    (plainPath oneWorkerEnv testModule = false → goodTensor.perChannel ≠ 1 →
      (∃ r, (SyncBatchNorm.forward testKernels oneWorkerEnv testModule goodTensor).1 =
        Except.ok (ForwardOut.synced r)) ∧
      (SyncBatchNorm.forward testKernels oneWorkerEnv testModule goodTensor).2.2 =
        syncForwardTrace) :=
  C1_plain_vs_sync_dispatch testKernels oneWorkerEnv testModule goodTensor rfl
    (by decide) (by decide)

/-! ## Lemmas for the parallel mean/variance merge -/

/-- Expansion of a sum of squared deviations about an arbitrary point. -/
theorem sum_sq_dev (s : List ℚ) (m : ℚ) :
    (s.map fun x => (x - m) ^ 2).sum =
      (s.map fun x => x ^ 2).sum - 2 * m * s.sum + s.length * m ^ 2 := by
  induction s with
  | nil => simp
  | cons a t ih =>
    simp only [List.map_cons, List.sum_cons, ih, List.length_cons]
    push_cast
    ring

/-- Count times mean is the shard sum. -/
theorem len_mul_batchMean (s : List ℚ) (hs : s.length ≠ 0) :
    (s.length : ℚ) * batchMean s = s.sum := by
  have hn : (s.length : ℚ) ≠ 0 := Nat.cast_ne_zero.mpr hs
  unfold batchMean
  field_simp

/-- Count times biased variance, in sum-of-squares form. -/
theorem len_mul_batchVar (s : List ℚ) (hs : s.length ≠ 0) :
    (s.length : ℚ) * batchVar s =
      (s.map fun x => x ^ 2).sum - (s.length : ℚ) * batchMean s ^ 2 := by
  have hn : (s.length : ℚ) ≠ 0 := Nat.cast_ne_zero.mpr hs
  have hm := len_mul_batchMean s hs
  unfold batchVar
  rw [sum_sq_dev]
  field_simp
  linear_combination (2 * batchMean s) * hm

/-- Zipping two maps over the same list is a single map. -/
theorem zipWith_map_same {α β : Type} (f : β → β → β) (g h2 : α → β) (l : List α) :
    List.zipWith f (l.map g) (l.map h2) = l.map fun a => f (g a) (h2 a) := by
  induction l with
  | nil => rfl
  | cons a t ih => simp [ih]

/-- The per-worker counts sum to the size of the concatenated batch. -/
theorem counts_sum (shards : List (List ℚ)) :
    (shards.map fun s => ((s.length : ℚ))).sum = ((shards.flatten.length : ℚ)) := by
  induction shards with
  | nil => simp
  | cons s t ih => simp [ih]

/-- The count-weighted worker means sum to the concatenated batch sum. -/
theorem sums_sum (shards : List (List ℚ)) (h : ∀ s ∈ shards, s.length ≠ 0) :
    (shards.map fun s => (s.length : ℚ) * batchMean s).sum = shards.flatten.sum := by
  induction shards with
  | nil => simp
  | cons s t ih =>
    have hs := h s (by simp)
    have ht : ∀ u ∈ t, u.length ≠ 0 := fun u hu => h u (by simp [hu])
    simp [ih ht, len_mul_batchMean s hs]

/-- The numerator of Chan's merge collapses to the concatenated batch's
sum-of-squares form. -/
theorem chan_numerator (shards : List (List ℚ)) (M : ℚ)
    (h : ∀ s ∈ shards, s.length ≠ 0) :
    ((shards.map fun s => (s.length : ℚ) * batchVar s).sum +
      (shards.map fun s => (s.length : ℚ) * (batchMean s - M) ^ 2).sum) =
      (shards.flatten.map fun x => x ^ 2).sum - 2 * M * shards.flatten.sum +
        (shards.flatten.length : ℚ) * M ^ 2 := by
  induction shards with
  | nil => simp
  | cons s t ih =>
    have hs := h s (by simp)
    have ht : ∀ u ∈ t, u.length ≠ 0 := fun u hu => h u (by simp [hu])
    have hrec := ih ht
    have h1 := len_mul_batchVar s hs
    have h2 := len_mul_batchMean s hs
    simp only [List.map_cons, List.sum_cons, List.flatten_cons, List.map_append,
      List.sum_append, List.length_append]
    push_cast
    linear_combination hrec + h1 - 2 * M * h2

/-- C8: for every list of worker shards (each of size ≥ 2), the
spec-modelled distributed combination — count-weighted mean and Chan's
parallel-variance merge over the per-shard counts, means and biased
variances — equals the mean and biased variance computed directly on the
concatenation of all shards into one batch. -/
theorem C8_parallel_merge_correct (shards : List (List ℚ))
    (h : ∀ s ∈ shards, 2 ≤ s.length) :
    combinedMean (shards.map fun s => ((s.length : ℚ))) (shards.map batchMean) =
      batchMean shards.flatten ∧
    chanVar (shards.map fun s => ((s.length : ℚ))) (shards.map batchMean)
        (shards.map batchVar) =
      batchVar shards.flatten := by
  have hlen : ∀ s ∈ shards, s.length ≠ 0 := by
    intro s hsm
    have := h s hsm
    omega
  have partA : combinedMean (shards.map fun s => ((s.length : ℚ)))
      (shards.map batchMean) = batchMean shards.flatten := by
    unfold combinedMean
    simp only [zipWith_map_same]
    rw [counts_sum, sums_sum shards hlen]
    rfl
  refine ⟨partA, ?_⟩
  by_cases hnil : shards = []
  · subst hnil
    simp [chanVar, combinedMean, batchVar, batchMean]
  · have hCn : shards.flatten.length ≠ 0 := by
      cases shards with
      | nil => exact absurd rfl hnil
      | cons s0 t =>
        have h0 := h s0 (by simp)
        simp only [List.flatten_cons, List.length_append]
        omega
    have hC : ((shards.flatten.length : ℚ)) ≠ 0 := Nat.cast_ne_zero.mpr hCn
    have hv := len_mul_batchVar shards.flatten hCn
    have hm := len_mul_batchMean shards.flatten hCn
    unfold chanVar
    simp only [zipWith_map_same, partA, counts_sum]
    rw [chan_numerator shards (batchMean shards.flatten) hlen]
    rw [div_eq_iff hC]
    linear_combination 2 * batchMean shards.flatten * hm - hv

/-- Witness for C8: the spec's two-worker example, shards `[1,2,3]` and
`[4,5]`: the merged statistics equal those of the concatenated batch
`[1,2,3,4,5]` — combined mean 3, combined population variance 2. -/
theorem C8_witness :
    (∀ s ∈ [[1, 2, 3], [(4 : ℚ), 5]], 2 ≤ s.length) ∧
    combinedMean ([[1, 2, 3], [(4 : ℚ), 5]].map fun s => ((s.length : ℚ)))
        ([[1, 2, 3], [(4 : ℚ), 5]].map batchMean) =
      batchMean ([[1, 2, 3], [(4 : ℚ), 5]].flatten) ∧
    chanVar ([[1, 2, 3], [(4 : ℚ), 5]].map fun s => ((s.length : ℚ)))
        ([[1, 2, 3], [(4 : ℚ), 5]].map batchMean)
        ([[1, 2, 3], [(4 : ℚ), 5]].map batchVar) =
      batchVar ([[1, 2, 3], [(4 : ℚ), 5]].flatten) ∧
    batchMean ([[1, 2, 3], [(4 : ℚ), 5]].flatten) = 3 ∧
    batchVar ([[1, 2, 3], [(4 : ℚ), 5]].flatten) = 2 :=
  ⟨by decide,
   (C8_parallel_merge_correct [[1, 2, 3], [(4 : ℚ), 5]] (by decide)).1,
   (C8_parallel_merge_correct [[1, 2, 3], [(4 : ℚ), 5]] (by decide)).2,
   by norm_num [batchMean], by norm_num [batchVar, batchMean]⟩
